import Mathlib

/-!
Shallow embedding of the alert-intelligence pipeline of FIT5120-cycsafe:
`src/services/alertsService.ts` (alert aggregator merge),
`src/services/LocationBus.ts` (location tracker / geocode throttling),
`src/services/vicEmergency.ts` (geospatial classifier).

Conventions of the embedding:
* JavaScript numbers are modelled as exact rationals (`ℚ`) or integers (`ℤ`);
  IEEE-754 rounding is outside the model.
* Optional / missing JS values are `Option`; a JS string field whose falsy
  default is `""` is modelled as a plain `String` with `""` meaning absent.
* `Map` insertion-order semantics are modelled by an association list; JS
  `Array.prototype.sort` (stable since ES2019) is modelled by
  `List.mergeSort`, which is stable.
* Network effects are modelled by explicit oracle parameters (the response a
  `fetch` would produce) and by `Except` for failed cycles.
-/

namespace CycSafe

/-! ## alertsService.ts : data model -/

/-- `AlertLite` from `src/services/alertsService.ts`. -/
structure AlertLite where
  clusterId : String
  incidentType : String
  status : Option String := none
  reportCount : Option ℤ := none
  expiresAt : ℤ
  severity : Option String := none
  lat : Option ℚ := none
  lng : Option ℚ := none
  photoUrls : Option (List String) := none
  ackCount : Option ℤ := none
  description : Option String := none
  ackable : Option Bool := none
deriving DecidableEq, Repr

/-- `AlertsPayload` from `src/services/alertsService.ts`. -/
structure AlertsPayload where
  ok : Bool
  serverNow : ℤ
  alerts : List AlertLite
deriving DecidableEq, Repr

/-! ## alertsService.ts : fetchOnce merge (steps 3–4 of the cycle) -/

/-- Lookup in the insertion-ordered association list modelling the JS `Map`
(`byId.get(id)`). -/
def lookupId (id : String) : List (String × AlertLite) → Option AlertLite
  | [] => none
  | p :: rest => if p.1 = id then some p.2 else lookupId id rest

/-- `Number(a?.expiresAt || 0) >= Number(prev?.expiresAt || 0) ? a : prev`:
the record kept when `a` meets the previous record under the same id. -/
def keepFresher (prev a : AlertLite) : AlertLite :=
  if prev.expiresAt ≤ a.expiresAt then a else prev

/-- One iteration of the `for (const a of mergedRaw)` dedup loop of
`fetchOnce`: skip empty ids; first occurrence inserts (JS `Map.set` appends a
new key at the end); a repeated id overwrites the value in place, keeping the
record with the larger `expiresAt` (ties to the later arrival). -/
def dedupInsert (m : List (String × AlertLite)) (a : AlertLite) :
    List (String × AlertLite) :=
  let id := a.clusterId
  if id = "" then m
  else
    match lookupId id m with
    | none => m ++ [(id, a)]
    | some prev =>
        let keep := keepFresher prev a
        m.map fun p => if p.1 = id then (id, keep) else p

/-- The whole dedup loop over `mergedRaw`, starting from an empty `Map`. -/
def dedupById (l : List AlertLite) : List (String × AlertLite) :=
  l.foldl dedupInsert []

/-- Comparator of step 4, `(x, y) => y.expiresAt - x.expiresAt`, i.e. sort by
`expiresAt` descending. -/
def byExpiryDesc (x y : AlertLite) : Bool :=
  decide (y.expiresAt ≤ x.expiresAt)

/-- The pure merge performed by `fetchOnce` (steps 3–4): concatenate backend
and local weather records, drop records not strictly beyond `now`, dedup by
`clusterId` keeping the larger `expiresAt`, and stable-sort by `expiresAt`
descending. -/
def fetchOnceMerge (backend weather : List AlertLite) (now : ℤ) :
    List AlertLite :=
  let mergedRaw := (backend ++ weather).filter fun a => decide (now < a.expiresAt)
  let byId := dedupById mergedRaw
  let merged := byId.map Prod.snd
  merged.mergeSort byExpiryDesc

/-! ## alertsService.ts : fetchOnce cycle with failure semantics -/

/-- The persisted / published aggregator state: `cs.alerts.list`,
`cs.alerts.total`, `cs.alerts.updatedAt` plus the broadcast list. -/
structure AlertsStore where
  list : List AlertLite
  total : ℕ
  updatedAt : ℤ
deriving DecidableEq, Repr

/-- A failed cycle: network error or JSON parse error (`fetch`/`res.json`
rejecting inside the `try`). -/
inductive FetchError where
  | network
  | parse
deriving DecidableEq, Repr

/-- One `fetchOnce` cycle as a state transformer. Every write to the store
(step 5) happens after both awaits, inside the `try`; a rejected fetch or
parse jumps to the `catch`, which only logs, so the store is returned
untouched. `Array.isArray(data?.alerts)` is always true in the typed model. -/
def fetchOnceCycle (result : Except FetchError AlertsPayload)
    (weatherRaw : List AlertLite) (now nowMs : ℤ) (store : AlertsStore) :
    AlertsStore :=
  match result with
  | .error _ => store
  | .ok data =>
      let backend := data.alerts
      let merged := fetchOnceMerge backend weatherRaw now
      { list := merged, total := merged.length, updatedAt := nowMs }

/-! ## LocationBus.ts : data model -/

/-- `Coords` from `src/services/LocationBus.ts`. -/
structure Coords where
  lat : ℚ
  lon : ℚ
  accuracy : Option ℚ := none
deriving DecidableEq, Repr

/-- `PermissionState` (minus `undefined`, which is `Option.none` at use
sites). -/
inductive PermissionState where
  | granted
  | denied
  | prompt
deriving DecidableEq, Repr

/-- `LocationSnapshot` from `src/services/LocationBus.ts`. -/
structure LocSnapshot where
  coords : Option Coords
  address : Option String
  geocoding : Bool
  lastUpdated : ℤ
  permission : Option PermissionState
deriving DecidableEq, Repr

/-! ## LocationBus.ts : looksLikeCoords
The regex `/^\s*-?\d{1,3}\.\d{3,},\s*-?\d{1,3}\.\d{3,}\s*$/` is deterministic
(its character classes at each boundary are disjoint), so it is modelled by a
greedy matcher. `\s` is modelled by the ASCII whitespace characters. -/

/-- ASCII members of the regex class `\s`. -/
def isWsChar (c : Char) : Bool :=
  c = ' ' || c = '\t' || c = '\n' || c = '\r' || c = '\x0b' || c = '\x0c'

/-- Members of the regex class `\d`. -/
def isDigitChar (c : Char) : Bool :=
  '0' ≤ c && c ≤ '9'

/-- `\s*` : drop leading whitespace. -/
def dropWs : List Char → List Char
  | [] => []
  | c :: cs => if isWsChar c then dropWs cs else c :: cs

/-- Greedily consume `\d*`, returning how many digits were read and the
rest. -/
def spanDigits : List Char → ℕ × List Char
  | [] => (0, [])
  | c :: cs =>
      if isDigitChar c then
        let r := spanDigits cs
        (r.1 + 1, r.2)
      else (0, c :: cs)

/-- `-?\d{1,3}\.\d{3,}` : one signed decimal number of the coordinate form;
returns the remaining input on success. -/
def matchCoordNum (cs : List Char) : Option (List Char) :=
  let cs := match cs with
    | '-' :: r => r
    | r => r
  let r1 := spanDigits cs
  if r1.1 < 1 || 3 < r1.1 then none
  else
    match r1.2 with
    | '.' :: cs2 =>
        let r2 := spanDigits cs2
        if r2.1 < 3 then none else some r2.2
    | _ => none

/-- `looksLikeCoords` from `src/services/LocationBus.ts`: does the string
match `/^\s*-?\d{1,3}\.\d{3,},\s*-?\d{1,3}\.\d{3,}\s*$/`? (A null/empty
argument is falsy in the source and yields `false`; the empty string also
fails the match, so it needs no separate case.) -/
def looksLikeCoords (s : String) : Bool :=
  match matchCoordNum (dropWs s.toList) with
  | none => false
  | some rest =>
      match rest with
      | ',' :: rest2 =>
          match matchCoordNum (dropWs rest2) with
          | none => false
          | some rest3 => dropWs rest3 = ([] : List Char)
      | _ => false

/-! ## LocationBus.ts : persisted state, geocoding -/

/-- `readSaved` from `src/services/LocationBus.ts`. `savedCoords` is the
already-parsed, `Number.isFinite`-validated content of `cs.coords` (a corrupt
or absent value is `none`); `savedAddress` is `localStorage.getItem("cs.address") || null`.
A coordinate-like saved address is ignored. -/
def readSaved (savedCoords : Option (ℚ × ℚ)) (savedAddress : Option String) :
    LocSnapshot :=
  { coords := savedCoords.map fun p => { lat := p.1, lon := p.2 },
    address :=
      match savedAddress with
      | none => none
      | some s => if looksLikeCoords s then none else some s,
    geocoding := false, lastUpdated := 0, permission := none }

/-- The body of `reverseGeocode` after a response arrived:
`const addr = (data?.address) || null; return addr && !looksLikeCoords(addr) ? addr : null`.
`payloadAddress` is the `address` field of the JSON response (`none` for a
missing field, a network error, or a JSON parse error, which all yield null). -/
def processGeoPayload (payloadAddress : Option String) : Option String :=
  match payloadAddress with
  | none => none
  | some a => if a = "" then none else if looksLikeCoords a then none else some a

/-- `reverseGeocode` from `src/services/LocationBus.ts`, with `api` the
`VITE_LAMBDA_URL` configuration. The boolean records whether a network
request was issued: with no configured endpoint the function returns null
immediately and performs no fetch (no fallback endpoint exists). -/
def reverseGeocodeModel (api : Option String) (payloadAddress : Option String) :
    Option String × Bool :=
  match api with
  | none => (none, false)
  | some _ => (processGeoPayload payloadAddress, true)

/-- `roundCell` from `src/services/LocationBus.ts`:
`Math.floor(x * 10^p) / 10^p` on each component. The source formats the pair
as the string `"lat_lon"` via `toFixed(p)`, which is injective on the grid
`k/10^p`, so the key is modelled as the pair itself. -/
def roundCell (lat lon : ℚ) (p : ℕ := 3) : ℚ × ℚ :=
  let f : ℚ := 10 ^ p
  (((⌊lat * f⌋ : ℤ) : ℚ) / f, ((⌊lon * f⌋ : ℤ) : ℚ) / f)

/-- Modelled from the spec: "the cell key equals the pair of values obtained
by dropping all digits of lat and lon beyond the third decimal place", i.e.
truncation toward zero at 3 decimals. Stated from the spec's words, to be
compared with `roundCell` (which the source implements with `Math.floor`). -/
def truncDigits3 (q : ℚ) : ℚ :=
  (((if 0 ≤ q then ⌊q * 1000⌋ else ⌈q * 1000⌉) : ℤ) : ℚ) / 1000

/-- The state `maybeGeocode` reads and writes: the snapshot's current
`address` and the session-stored last successfully geocoded cell
(`cs.loc.lastGeocodeCell`; `none` models the absent key, read back as `""`). -/
structure GeoState where
  address : Option String := none
  lastCell : Option (ℚ × ℚ) := none
deriving DecidableEq, Repr

/-- `maybeGeocode` from `src/services/LocationBus.ts`, with the returned `ℕ`
counting reverse-geocode calls (0 or 1). Skip when the cell equals the last
geocoded cell and an address is already known; otherwise call
`reverseGeocode` (cancelling any in-flight call, which the sequential model
renders as nothing to cancel), set `address := addr ?? snap.address ?? null`,
and remember the cell only when an address came back. `respond lat lon` is
the `address` field of the endpoint's JSON response for that query. -/
def maybeGeocode (api : Option String) (respond : ℚ → ℚ → Option String)
    (st : GeoState) (lat lon : ℚ) : GeoState × ℕ :=
  let cell := roundCell lat lon
  if st.lastCell = some cell ∧ st.address.isSome then (st, 0)
  else
    let addr := (reverseGeocodeModel api (respond lat lon)).1
    ({ address := addr.orElse fun _ => st.address,
       lastCell := if addr.isSome then some cell else st.lastCell }, 1)

/-- A sequence of position updates, each running `maybeGeocode` (the tail of
`onPosition`), accumulating the number of reverse-geocode calls. -/
def runPositions (api : Option String) (respond : ℚ → ℚ → Option String)
    (st : GeoState) : List (ℚ × ℚ) → GeoState × ℕ
  | [] => (st, 0)
  | p :: ps =>
      let r1 := maybeGeocode api respond st p.1 p.2
      let r2 := runPositions api respond r1.1 ps
      (r2.1, r1.2 + r2.2)

/-! ## LocationBus.ts : snapshot transitions and reachability -/

/-- The snapshot replacement in `onPosition`:
`snap = { ...snap, coords, lastUpdated: Date.now() }`. -/
def onPositionUpdate (s : LocSnapshot) (c : Coords) (nowMs : ℤ) : LocSnapshot :=
  { s with coords := some c, lastUpdated := nowMs }

/-- The snapshot update at the start of `maybeGeocode`:
`snap = { ...snap, geocoding: true }`. -/
def geocodeBegin (s : LocSnapshot) : LocSnapshot :=
  { s with geocoding := true }

/-- The snapshot update when a reverse-geocode completes:
`snap = { ...snap, geocoding: false, address: addr ?? snap.address ?? null }`. -/
def geocodeEnd (s : LocSnapshot) (api : Option String)
    (payloadAddress : Option String) : LocSnapshot :=
  let addr := (reverseGeocodeModel api payloadAddress).1
  { s with geocoding := false, address := addr.orElse fun _ => s.address }

/-- The permission refresh in `tick` / `start`:
`snap = { ...snap, permission: await queryPermission() }`. -/
def permissionUpdate (s : LocSnapshot) (p : Option PermissionState) :
    LocSnapshot :=
  { s with permission := p }

/-- The observable snapshot states of the LocationBus singleton: the initial
restore from storage, then any interleaving of position ticks, geocode
begin/completion and permission refreshes, with arbitrary store contents,
endpoint configuration and endpoint responses. -/
inductive ReachableSnap : LocSnapshot → Prop where
  | init (savedCoords : Option (ℚ × ℚ)) (savedAddress : Option String) :
      ReachableSnap (readSaved savedCoords savedAddress)
  | pos {s} (c : Coords) (nowMs : ℤ) :
      ReachableSnap s → ReachableSnap (onPositionUpdate s c nowMs)
  | geoBegin {s} :
      ReachableSnap s → ReachableSnap (geocodeBegin s)
  | geoEnd {s} (api : Option String) (payloadAddress : Option String) :
      ReachableSnap s → ReachableSnap (geocodeEnd s api payloadAddress)
  | perm {s} (p : Option PermissionState) :
      ReachableSnap s → ReachableSnap (permissionUpdate s p)

/-! ## vicEmergency.ts : data model -/

/-- `Priority` from `src/components/AlertItem.tsx`. -/
inductive Priority where
  | CRITICAL
  | HIGH
  | MEDIUM
  | LOW
deriving DecidableEq, Repr

/-- `Category` from `src/components/AlertItem.tsx`. -/
inductive Category where
  | WEATHER
  | TRAFFIC
  | INFRA
  | SAFETY
deriving DecidableEq, Repr

/-- `props.cap` of a VIC feed feature (`cap?.severity`, `cap?.urgency`). -/
structure VicCap where
  severity : String := ""
  urgency : String := ""
deriving DecidableEq, Repr

/-- The property-bag fields `src/services/vicEmergency.ts` reads. Each raw
JS property is a free-form value that the source immediately coerces with
`String(x || "")`-style truthiness chains, so an absent field and the empty
string behave identically; both are modelled as `""`. `endTime` models
`props.end` (`end` is a reserved word in Lean). -/
structure VicProps where
  status : String := ""
  category1 : String := ""
  category2 : String := ""
  name : String := ""
  sourceTitle : String := ""
  feedType : String := ""
  text : String := ""
  webBody : String := ""
  location : String := ""
  webHeadline : String := ""
  action : String := ""
  cap : Option VicCap := none
  id : String := ""
  sourceId : String := ""
  eventId : String := ""
  updated : String := ""
  created : String := ""
  timestamp : String := ""
  time : String := ""
  endTime : String := ""
deriving DecidableEq, Repr

/-- GeoJSON geometry as consumed by `centroid` in
`src/services/vicEmergency.ts`: the six geometry kinds plus
`GeometryCollection`. Positions are `[lon, lat, ...]` coordinate arrays. -/
inductive Geometry where
  | point (coordinates : List ℚ)
  | multiPoint (coordinates : List (List ℚ))
  | lineString (coordinates : List (List ℚ))
  | multiLineString (coordinates : List (List (List ℚ)))
  | polygon (coordinates : List (List (List ℚ)))
  | multiPolygon (coordinates : List (List (List (List ℚ))))
  | geometryCollection (geometries : List Geometry)

/-- A position `p` passes `Array.isArray(p) && p.length >= 2`; destructure
`[lon, lat]` and return `(lat, lon)`. -/
def posToLatLon : List ℚ → Option (ℚ × ℚ)
  | lon :: lat :: _ => some (lat, lon)
  | _ => none

/-- Averaging loop `sx += lat; sy += lon; n++` followed by
`n ? [sx/n, sy/n] : null`. -/
def avgPoints (pts : List (ℚ × ℚ)) : Option (ℚ × ℚ) :=
  match pts with
  | [] => none
  | _ => some ((pts.map Prod.fst).sum / pts.length, (pts.map Prod.snd).sum / pts.length)

mutual

/-- `centroid` from `src/services/vicEmergency.ts`, returning `(lat, lon)`.
`Point` destructures its own coordinates (a malformed sub-2-element `Point`,
which in JS would silently produce `undefined`/NaN coordinates, is outside
the model and yields `none`); `MultiPoint`/`LineString`/`MultiLineString`
average all valid positions; `Polygon`/`MultiPolygon` average the first
ring; `GeometryCollection` averages its children's centroids. Empty
averages fall through to the final `return null`. -/
def centroid : Geometry → Option (ℚ × ℚ)
  | .point coordinates => posToLatLon coordinates
  | .multiPoint coordinates => avgPoints (coordinates.filterMap posToLatLon)
  | .lineString coordinates => avgPoints (coordinates.filterMap posToLatLon)
  | .multiLineString coordinates =>
      avgPoints ((coordinates.map fun line => line.filterMap posToLatLon).flatten)
  | .polygon coordinates => avgPoints ((coordinates.headD []).filterMap posToLatLon)
  | .multiPolygon coordinates =>
      avgPoints (((coordinates.headD []).headD []).filterMap posToLatLon)
  | .geometryCollection geometries => avgPoints (centroidList geometries)

/-- The recursion over `geom.geometries`, collecting child centroids. -/
def centroidList : List Geometry → List (ℚ × ℚ)
  | [] => []
  | g :: gs =>
      match centroid g with
      | some c => c :: centroidList gs
      | none => centroidList gs

end

/-- A raw feed feature: optional geometry plus the property bag
(`f?.properties ?? {}` makes a missing bag the empty one). -/
structure Feature where
  geometry : Option Geometry := none
  properties : VicProps := {}

/-- `AlertModel` from `src/services/vicEmergency.ts`. -/
structure AlertModel where
  id : String
  title : String
  description : String
  location : String
  timestamp : ℤ
  priority : Priority
  category : Category
  distanceKm : Option ℚ := none
deriving DecidableEq, Repr

/-! ## vicEmergency.ts : normalization helpers -/

/-- JS truthiness chain `a || b || ... || ""` over strings: the first
non-empty entry, else `""`. -/
def firstTruthy : List String → String
  | [] => ""
  | s :: rest => if s = "" then firstTruthy rest else s

/-- `hay.includes(needle)` on strings. -/
def containsSub (hay needle : String) : Bool :=
  decide (needle.toList <:+: hay.toList)

/-- `priorityFromVic` from `src/services/vicEmergency.ts`. -/
def priorityFromVic (p : VicProps) : Priority :=
  let level := (firstTruthy [p.status, p.category1, p.name, p.sourceTitle]).toLower
  let severity := (match p.cap with | some c => c.severity | none => "").toLower
  let urgency := (match p.cap with | some c => c.urgency | none => "").toLower
  if containsSub level "watch and act" || containsSub level "emergency" ||
      containsSub level "evacuate" then .CRITICAL
  else if containsSub level "warning" || severity = "severe" ||
      urgency = "immediate" then .HIGH
  else if containsSub level "advice" || containsSub level "community information" ||
      severity = "moderate" then .MEDIUM
  else if containsSub level "responding" ||
      containsSub level "request for assistance" then .HIGH
  else if containsSub level "under control" || containsSub level "safe" then .LOW
  else .MEDIUM

/-- `categoryFromVic` from `src/services/vicEmergency.ts`. -/
def categoryFromVic (p : VicProps) : Category :=
  let c1 := p.category1.toLower
  let c2 := p.category2.toLower
  let ft := p.feedType.toLower
  if containsSub c1 "met" || containsSub c2 "wind" || containsSub c2 "weather" then
    .WEATHER
  else if containsSub c1 "fire" || containsSub c2 "fire" then .SAFETY
  else if containsSub c1 "tree" || containsSub c2 "tree" ||
      containsSub c1 "other" then .INFRA
  else if containsSub c1 "security" || containsSub c1 "rescue" ||
      containsSub c2 "security" || containsSub c2 "rescue" then .SAFETY
  else if containsSub c1 "burn" || containsSub ft "burn" then .SAFETY
  else .SAFETY

/-- The tag-removal pass of `stripHtml`: each complete `<...>` run (regex
`<[^>]*>`) becomes one space; a `<` with no later `>` matches nothing, so
the remainder is kept verbatim. -/
def stripTags : List Char → List Char
  | [] => []
  | c :: cs =>
      if c = '<' && cs.contains '>' then
        ' ' :: stripTags ((cs.dropWhile fun d => !(d = '>')).drop 1)
      else c :: stripTags cs
termination_by l => l.length
decreasing_by
  · have h1 : ((cs.dropWhile fun d => !(d = '>')).length) ≤ cs.length :=
      (List.dropWhile_sublist _).length_le
    have h2 : (((cs.dropWhile fun d => !(d = '>')).drop 1).length) ≤
        ((cs.dropWhile fun d => !(d = '>')).length) := by
      simp [List.length_drop]
    simp only [List.length_cons]
    omega
  · simp only [List.length_cons]
    omega

/-- `.replace(/\s+/g, " ").trim()`: words separated by single spaces. -/
def collapseSpaces (s : String) : String :=
  " ".intercalate ((s.split fun c => isWsChar c).filter fun w => w ≠ "")

/-- `stripHtml` from `src/services/vicEmergency.ts`. -/
def stripHtml (s : String) : String :=
  collapseSpaces (String.mk (stripTags s.toList))

/-- `cleanDescription` from `src/services/vicEmergency.ts`. -/
def cleanDescription (p : VicProps) : String :=
  if p.text ≠ "" then p.text
  else if p.webBody ≠ "" then stripHtml p.webBody
  else
    let loc := if p.location = "" then "the area" else p.location
    "Emergency incident at " ++ loc ++ ". Stay informed and follow official guidance."

/-- `String(props.location).replace(/^VIC\s*[-,]?\s*/i, "")`: drop a leading
case-insensitive `VIC`, then whitespace, an optional `-`/`,`, and more
whitespace. -/
def stripVicTag (s : String) : String :=
  match s.toList with
  | c1 :: c2 :: c3 :: rest =>
      if c1.toLower = 'v' && c2.toLower = 'i' && c3.toLower = 'c' then
        let r1 := dropWs rest
        let r2 :=
          match r1 with
          | '-' :: t => dropWs t
          | ',' :: t => dropWs t
          | t => t
        String.mk r2
      else s
  | _ => s

/-- Zero-pad a remainder below 1000 to exactly three digits. -/
def pad3 (n : ℕ) : String :=
  if n < 10 then "00" ++ toString n
  else if n < 100 then "0" ++ toString n
  else toString n

/-- `x.toFixed(3)` on an exact rational: sign, then the magnitude rounded to
the nearest thousandth (ties rounding up in magnitude, per the `toFixed`
specification's "pick the larger n"). -/
def fixed3 (q : ℚ) : String :=
  let sign := if q < 0 then "-" else ""
  let n := (⌊|q| * 1000 + 1/2⌋ : ℤ).toNat
  sign ++ toString (n / 1000) ++ "." ++ pad3 (n % 1000)

/-- `pickLocation` from `src/services/vicEmergency.ts`. -/
def pickLocation (p : VicProps) (lat lon : Option ℚ) : String :=
  if p.location ≠ "" then (stripVicTag p.location).trim
  else
    match lat, lon with
    | some la, some lo => fixed3 la ++ "°, " ++ fixed3 lo ++ "°"
    | _, _ => "Victoria"

/-- `extractTitle` from `src/services/vicEmergency.ts`. -/
def extractTitle (p : VicProps) : String :=
  if p.webHeadline ≠ "" then p.webHeadline
  else if p.sourceTitle ≠ "" && p.action ≠ "" then p.sourceTitle ++ " - " ++ p.action
  else if p.name ≠ "" && p.category2 ≠ "" then p.category2 ++ " " ++ p.name
  else if p.category1 ≠ "" && p.category2 ≠ "" then p.category1 ++ " - " ++ p.category2
  else firstTruthy [p.category1, p.category2, p.sourceTitle, p.name, "Emergency Incident"]

/-- Walk the candidate list of `parseWhen`, skipping falsy entries and
entries `Date.parse` rejects. `parseDate` is the host's `Date.parse`
(implementation-defined for non-ISO inputs), `none` standing for NaN. -/
def firstParsed (parseDate : String → Option ℤ) : List String → Option ℤ
  | [] => none
  | t :: rest =>
      if t = "" then firstParsed parseDate rest
      else
        match parseDate t with
        | some v => some v
        | none => firstParsed parseDate rest

/-- `parseWhen` from `src/services/vicEmergency.ts`: the first parsable of
`[updated, created, timestamp, time, end]`, else `Date.now()`. -/
def parseWhen (parseDate : String → Option ℤ) (nowMs : ℤ) (p : VicProps) : ℤ :=
  (firstParsed parseDate [p.updated, p.created, p.timestamp, p.time, p.endTime]).getD nowMs

/-- `rawId.replace(/[^a-zA-Z0-9-_]/g, "")`. -/
def sanitizeId (s : String) : String :=
  String.mk (s.toList.filter fun c =>
    ('a' ≤ c && c ≤ 'z') || ('A' ≤ c && c ≤ 'Z') || ('0' ≤ c && c ≤ '9') ||
      c = '-' || c = '_')

/-- `String(p.id || p.sourceId || p.eventId || `${title}-${when}`)` followed
by the sanitizing replace. -/
def deriveId (p : VicProps) (title : String) (tWhen : ℤ) : String :=
  sanitizeId (firstTruthy [p.id, p.sourceId, p.eventId, title ++ "-" ++ toString tWhen])

/-- `Math.round(x)` = `⌊x + 1/2⌋`, also for negative arguments. -/
def jsRound (q : ℚ) : ℤ := ⌊q + 1/2⌋

/-- `Math.round((dM / 1000) * 10) / 10`: distance in km at 0.1 precision. -/
def roundKm1 (dM : ℚ) : ℚ := ((jsRound (dM / 1000 * 10) : ℤ) : ℚ) / 10

/-! ## vicEmergency.ts : radii and the eat loop -/

/-- `R1_METERS = Math.max(0, RADIUS_KM) * 1000`, with `radiusKm` the
`VITE_VIC_RADIUS_KM` configuration (default 5). -/
def R1_METERS (radiusKm : ℚ) : ℚ := max 0 radiusKm * 1000

/-- `R2_METERS_RAW = Math.max(0, EXT_RADIUS_KM) * 1000`, with `extRadiusKm`
the `VITE_VIC_EXT_RADIUS_KM` configuration (default 30). -/
def R2_METERS_RAW (extRadiusKm : ℚ) : ℚ := max 0 extRadiusKm * 1000

/-- `R2_METERS = Math.max(R2_METERS_RAW, R1_METERS)` — "ensure ext >= primary". -/
def R2_METERS (radiusKm extRadiusKm : ℚ) : ℚ :=
  max (R2_METERS_RAW extRadiusKm) (R1_METERS radiusKm)

/-- The `AlertModel` built inside `eat` for a feature with property bag `p`,
centroid `c` and distance `dM` meters. -/
def eatModel (parseDate : String → Option ℤ) (nowMs : ℤ) (p : VicProps)
    (c : ℚ × ℚ) (dM : ℚ) : AlertModel :=
  let title := extractTitle p
  let tWhen := parseWhen parseDate nowMs p
  { id := deriveId p title tWhen,
    title := title,
    description := cleanDescription p,
    location := pickLocation p (some c.1) (some c.2),
    timestamp := tWhen,
    priority := priorityFromVic p,
    category := categoryFromVic p,
    distanceKm := some (roundKm1 dM) }

/-- The `within30` record `{WEATHER: [], TRAFFIC: [], INFRA: [], SAFETY: []}`. -/
structure Buckets where
  WEATHER : List AlertModel := []
  TRAFFIC : List AlertModel := []
  INFRA : List AlertModel := []
  SAFETY : List AlertModel := []
deriving DecidableEq, Repr

/-- `within30[category]`. -/
def Buckets.get (b : Buckets) : Category → List AlertModel
  | .WEATHER => b.WEATHER
  | .TRAFFIC => b.TRAFFIC
  | .INFRA => b.INFRA
  | .SAFETY => b.SAFETY

/-- `within30[category].push(model)`. -/
def Buckets.push (b : Buckets) (k : Category) (m : AlertModel) : Buckets :=
  match k with
  | .WEATHER => { b with WEATHER := b.WEATHER ++ [m] }
  | .TRAFFIC => { b with TRAFFIC := b.TRAFFIC ++ [m] }
  | .INFRA => { b with INFRA := b.INFRA ++ [m] }
  | .SAFETY => { b with SAFETY := b.SAFETY ++ [m] }

/-- The mutable state the `eat` closure threads: the `nearby` array, the
`within30` buckets and the `seen` id set (insertion-ordered). -/
structure EatState where
  nearby : List AlertModel := []
  within30 : Buckets := {}
  seen : List String := []
deriving DecidableEq, Repr

/-- One iteration of the `for (const f of feats)` loop in `fetchVicIncidents`'
`eat`. `distAt` stands for `haversineMeters(lat, lon, aLat, aLon)` — the
great-circle distance, a transcendental function kept abstract over the
query point and the centroid; `origin` is the user coordinate `(lat, lon)`.
A feature with no resolvable centroid is skipped; a feature beyond
`R2_METERS` is skipped; a repeated derived id is skipped; otherwise the
model joins `nearby` when `dM <= R1_METERS`, else its category bucket. -/
def eatStep (radiusKm extRadiusKm : ℚ) (distAt : ℚ × ℚ → ℚ × ℚ → ℚ)
    (parseDate : String → Option ℤ) (nowMs : ℤ) (origin : ℚ × ℚ)
    (st : EatState) (f : Feature) : EatState :=
  match f.geometry.bind centroid with
  | none => st
  | some c =>
      let dM := distAt origin c
      if R2_METERS radiusKm extRadiusKm < dM then st
      else
        let model := eatModel parseDate nowMs f.properties c dM
        if model.id ∈ st.seen then st
        else
          let st1 : EatState := { st with seen := st.seen ++ [model.id] }
          if dM ≤ R1_METERS radiusKm then
            { st1 with nearby := st1.nearby ++ [model] }
          else
            { st1 with within30 := st1.within30.push model.category model }

/-- The whole `eat(collection)` call over a feature list. -/
def eat (radiusKm extRadiusKm : ℚ) (distAt : ℚ × ℚ → ℚ × ℚ → ℚ)
    (parseDate : String → Option ℤ) (nowMs : ℤ) (origin : ℚ × ℚ)
    (st : EatState) (features : List Feature) : EatState :=
  features.foldl (eatStep radiusKm extRadiusKm distAt parseDate nowMs origin) st

/-- `weight = {CRITICAL: 3, HIGH: 2, MEDIUM: 1, LOW: 0}`. -/
def priorityWeight : Priority → ℤ
  | .CRITICAL => 3
  | .HIGH => 2
  | .MEDIUM => 1
  | .LOW => 0

/-- The `sortAlerts` comparator: priority weight descending, then timestamp
descending (`w !== 0 ? w : y.timestamp - x.timestamp`). -/
def byPriorityThenTime (x y : AlertModel) : Bool :=
  decide (priorityWeight y.priority < priorityWeight x.priority ∨
    (priorityWeight y.priority = priorityWeight x.priority ∧ y.timestamp ≤ x.timestamp))

/-- `sortAlerts` from `src/services/vicEmergency.ts` (stable JS sort). -/
def sortAlerts (l : List AlertModel) : List AlertModel :=
  l.mergeSort byPriorityThenTime

/-- `ExtendedResult` from `src/services/vicEmergency.ts`. -/
structure ExtendedResult where
  nearby : List AlertModel
  within30ByCategory : Buckets
deriving DecidableEq, Repr

/-- The pure composition of `fetchVicIncidents` after the two feeds arrived:
`eat(events)` then `eat(impacts)` (a failed feed is `none`), then sort the
`nearby` list and every category bucket. -/
def fetchVicIncidents (radiusKm extRadiusKm : ℚ) (distAt : ℚ × ℚ → ℚ × ℚ → ℚ)
    (parseDate : String → Option ℤ) (nowMs : ℤ) (origin : ℚ × ℚ)
    (events impacts : Option (List Feature)) : ExtendedResult :=
  let st0 : EatState := {}
  let st1 :=
    match events with
    | some fs => eat radiusKm extRadiusKm distAt parseDate nowMs origin st0 fs
    | none => st0
  let st2 :=
    match impacts with
    | some fs => eat radiusKm extRadiusKm distAt parseDate nowMs origin st1 fs
    | none => st1
  { nearby := sortAlerts st2.nearby,
    within30ByCategory :=
      { WEATHER := sortAlerts st2.within30.WEATHER,
        TRAFFIC := sortAlerts st2.within30.TRAFFIC,
        INFRA := sortAlerts st2.within30.INFRA,
        SAFETY := sortAlerts st2.within30.SAFETY } }

/-! ## Specification artifacts used by the proofs -/

/-- The abstract "winner so far" step for one `clusterId`: what the dedup
loop's entry for `id` becomes after meeting record `a`. -/
def winnerStep (id : String) (acc : Option AlertLite) (a : AlertLite) :
    Option AlertLite :=
  if a.clusterId = id then
    some (match acc with
          | none => a
          | some prev => keepFresher prev a)
  else acc

/-- Well-formedness of the association list modelling the JS `Map`: keys are
distinct, non-empty, and each value's `clusterId` is its key. -/
def KeysOk (m : List (String × AlertLite)) : Prop :=
  (m.map Prod.fst).Nodup ∧ ∀ p ∈ m, p.2.clusterId = p.1 ∧ p.1 ≠ ""

/-- The address invariant of `LocSnapshot`: whatever address is present is
not a formatted coordinate pair. -/
def AddrOk (s : LocSnapshot) : Prop :=
  ∀ a, s.address = some a → looksLikeCoords a = false

/-! ## Lemmas about the dedup map -/

theorem lookupId_of_append (id : String) (m m' : List (String × AlertLite)) :
    lookupId id (m ++ m') =
      match lookupId id m with
      | some v => some v
      | none => lookupId id m' := by
  induction m with
  | nil => simp [lookupId]
  | cons p rest ih =>
      by_cases h : p.1 = id
      · simp [lookupId, h]
      · simp [lookupId, h, ih]

theorem lookupId_map_replace (id id0 : String) (keep : AlertLite)
    (m : List (String × AlertLite)) :
    lookupId id (m.map fun p => if p.1 = id0 then (id0, keep) else p) =
      if id = id0 then (lookupId id m).map fun _ => keep
      else lookupId id m := by
  induction m with
  | nil => by_cases h : id = id0 <;> simp [lookupId, h]
  | cons p rest ih =>
      by_cases hp : p.1 = id0
      · by_cases hid : id = id0
        · subst hid
          simp [lookupId, hp]
        · have hne1 : ¬ (id0 = id) := fun h => hid h.symm
          have hne2 : ¬ (p.1 = id) := fun h => hid (hp.symm.trans h).symm
          simp [lookupId, hp, hid, ih, hne1, hne2]
      · by_cases hid : id = id0
        · subst hid
          simp [lookupId, hp, ih]
        · by_cases hq : p.1 = id <;> simp [lookupId, hp, hid, ih, hq]

theorem lookupId_none_iff (id : String) (m : List (String × AlertLite)) :
    lookupId id m = none ↔ id ∉ m.map Prod.fst := by
  induction m with
  | nil => simp [lookupId]
  | cons p rest ih =>
      by_cases h : p.1 = id
      · simp [lookupId, h]
      · simp [lookupId, h, ih, Ne.symm h]

theorem lookupId_mem (id : String) (m : List (String × AlertLite)) (v : AlertLite)
    (h : lookupId id m = some v) : (id, v) ∈ m := by
  induction m with
  | nil => simp [lookupId] at h
  | cons p rest ih =>
      by_cases hp : p.1 = id
      · simp [lookupId, hp] at h
        have hpv : (id, v) = p := by
          rw [← hp, ← h]
        rw [hpv]
        exact List.mem_cons_self _ _
      · simp [lookupId, hp] at h
        exact List.mem_cons_of_mem _ (ih h)

theorem lookupId_dedupInsert (id : String) (hid : id ≠ "")
    (m : List (String × AlertLite)) (a : AlertLite) :
    lookupId id (dedupInsert m a) =
      if a.clusterId = id then
        some (match lookupId id m with
              | none => a
              | some prev => keepFresher prev a)
      else lookupId id m := by
  simp only [dedupInsert]
  by_cases hA : a.clusterId = ""
  · have hne : ¬ a.clusterId = id := fun h => hid (h ▸ hA)
    have hne2 : ¬ ("" = id) := fun h => hid h.symm
    simp [hA, hne, hne2]
  · rw [if_neg hA]
    cases hL : lookupId a.clusterId m with
    | none =>
        rw [lookupId_of_append]
        by_cases hEq : a.clusterId = id
        · rw [hEq] at hL
          simp [hL, lookupId, hEq]
        · have hne : ¬ a.clusterId = id := hEq
          cases hM : lookupId id m <;> simp [hM, lookupId, hne, hEq]
    | some prev =>
        rw [lookupId_map_replace id a.clusterId (keepFresher prev a) m]
        by_cases hEq : id = a.clusterId
        · subst hEq
          simp [hL]
        · have hne : ¬ a.clusterId = id := fun h => hEq h.symm
          simp [hne, hEq]

theorem lookupId_foldl_dedup (id : String) (hid : id ≠ "") (l : List AlertLite)
    (m : List (String × AlertLite)) :
    lookupId id (l.foldl dedupInsert m) = l.foldl (winnerStep id) (lookupId id m) := by
  induction l generalizing m with
  | nil => simp
  | cons a l ih =>
      simp only [List.foldl_cons]
      rw [ih (dedupInsert m a), lookupId_dedupInsert id hid m a]
      rfl

theorem winnerStep_foldl_filter (id : String) (l : List AlertLite)
    (acc : Option AlertLite) :
    l.foldl (winnerStep id) acc =
      (l.filter fun a => decide (a.clusterId = id)).foldl (winnerStep id) acc := by
  induction l generalizing acc with
  | nil => simp
  | cons a l ih =>
      by_cases h : a.clusterId = id
      · simp only [List.foldl_cons, List.filter_cons, decide_eq_true h, if_pos]
        rw [ih]
      · have hs : winnerStep id acc a = acc := by
          simp [winnerStep, h]
        simp only [List.foldl_cons, List.filter_cons, hs]
        rw [ih]
        simp [h]

theorem keysOk_nil : KeysOk [] := by
  constructor
  · simp
  · simp

theorem keysOk_dedupInsert (m : List (String × AlertLite)) (a : AlertLite)
    (h : KeysOk m) : KeysOk (dedupInsert m a) := by
  simp only [dedupInsert]
  by_cases hA : a.clusterId = ""
  · simpa [hA] using h
  · rw [if_neg hA]
    cases hL : lookupId a.clusterId m with
    | none =>
        constructor
        · have hnotin : a.clusterId ∉ m.map Prod.fst :=
            (lookupId_none_iff _ _).mp hL
          simpa using List.Nodup.append h.1 (by simp) (by simpa using hnotin)
        · intro p hp
          rcases List.mem_append.mp hp with hp | hp
          · exact h.2 p hp
          · simp at hp
            subst hp
            exact ⟨rfl, hA⟩
    | some prev =>
        have hprev : (a.clusterId, prev) ∈ m := lookupId_mem _ _ _ hL
        have hprevId : prev.clusterId = a.clusterId := (h.2 _ hprev).1
        constructor
        · have hkeys : (m.map fun p => if p.1 = a.clusterId then
              (a.clusterId, keepFresher prev a) else p).map Prod.fst = m.map Prod.fst := by
            rw [List.map_map]
            refine List.map_congr_left fun p _ => ?_
            by_cases hp : p.1 = a.clusterId <;> simp [hp]
          rw [hkeys]
          exact h.1
        · intro p hp
          rcases List.mem_map.mp hp with ⟨q, hq, hfq⟩
          by_cases hq1 : q.1 = a.clusterId
          · rw [← hfq]
            simp only [hq1, if_pos]
            refine ⟨?_, hA⟩
            simp only [keepFresher]
            by_cases hcmp : prev.expiresAt ≤ a.expiresAt
            · simp [hcmp]
            · simp [hcmp, hprevId]
          · rw [← hfq]
            simp only [hq1, if_neg, ite_false]
            exact h.2 q hq

theorem keysOk_foldl (l : List AlertLite) (m : List (String × AlertLite))
    (h : KeysOk m) : KeysOk (l.foldl dedupInsert m) := by
  induction l generalizing m with
  | nil => simpa using h
  | cons a l ih =>
      simp only [List.foldl_cons]
      exact ih _ (keysOk_dedupInsert m a h)

theorem keysOk_dedupById (l : List AlertLite) : KeysOk (dedupById l) :=
  keysOk_foldl l [] keysOk_nil

theorem mem_dedupInsert (m : List (String × AlertLite)) (a : AlertLite)
    (p : String × AlertLite) (hp : p ∈ dedupInsert m a) : p ∈ m ∨ p.2 = a := by
  simp only [dedupInsert] at hp
  by_cases hA : a.clusterId = ""
  · simp [hA] at hp
    exact Or.inl hp
  · rw [if_neg hA] at hp
    cases hL : lookupId a.clusterId m with
    | none =>
        rw [hL] at hp
        rcases List.mem_append.mp hp with hp | hp
        · exact Or.inl hp
        · simp at hp
          subst hp
          exact Or.inr rfl
    | some prev =>
        rw [hL] at hp
        rcases List.mem_map.mp hp with ⟨q, hq, hfq⟩
        by_cases hq1 : q.1 = a.clusterId
        · rw [← hfq]
          simp only [hq1, if_pos]
          simp only [keepFresher]
          by_cases hcmp : prev.expiresAt ≤ a.expiresAt
          · simp [hcmp]
          · simp only [hcmp, ite_false]
            exact Or.inl (lookupId_mem _ _ _ hL)
        · rw [← hfq]
          simp only [hq1, if_neg, ite_false]
          exact Or.inl hq

theorem mem_foldl_dedup (l : List AlertLite) (m : List (String × AlertLite))
    (p : String × AlertLite) (hp : p ∈ l.foldl dedupInsert m) :
    p ∈ m ∨ p.2 ∈ l := by
  induction l generalizing m with
  | nil => exact Or.inl (by simpa using hp)
  | cons a l ih =>
      simp only [List.foldl_cons] at hp
      rcases ih (dedupInsert m a) hp with h | h
      · rcases mem_dedupInsert m a p h with h | h
        · exact Or.inl h
        · exact Or.inr (by simp [h])
      · exact Or.inr (List.mem_cons_of_mem _ h)

theorem filter_key_of_lookup (m : List (String × AlertLite)) (c : String)
    (v : AlertLite) (h : KeysOk m) (hl : lookupId c m = some v) :
    m.filter (fun p => decide (p.1 = c)) = [(c, v)] := by
  induction m with
  | nil => simp [lookupId] at hl
  | cons p rest ih =>
      have hkeys : (p.1 :: rest.map Prod.fst).Nodup := by
        simpa using h.1
      have hrest : KeysOk rest :=
        ⟨(List.nodup_cons.mp hkeys).2, fun q hq => h.2 q (List.mem_cons_of_mem _ hq)⟩
      by_cases hp : p.1 = c
      · simp only [lookupId, hp, if_pos] at hl
        have hv : v = p.2 := by
          cases hl
          rfl
        have hnone : rest.filter (fun q => decide (q.1 = c)) = [] := by
          refine List.filter_eq_nil_iff.mpr fun q hq => ?_
          have : q.1 ≠ c := by
            intro hqc
            exact (List.nodup_cons.mp hkeys).1
              (hp ▸ hqc ▸ List.mem_map_of_mem Prod.fst hq)
          simpa using this
        have hpv : p = (c, v) := by
          rw [hv, ← hp]
        simp [List.filter_cons, hp, hnone, hpv]
      · simp only [lookupId, hp, if_neg, ite_false] at hl
        simpa [List.filter_cons, hp] using ih hrest hl

theorem filter_snd_map (q : AlertLite → Bool) (M : List (String × AlertLite)) :
    (M.map Prod.snd).filter q = (M.filter fun p => q p.2).map Prod.snd := by
  induction M with
  | nil => simp
  | cons p rest ih => by_cases h : q p.2 <;> simp [List.filter_cons, h, ih]

/-! ## Claim theorems: the aggregator merge -/

/-- **C1.** For any two AlertRecords in the aggregator's input (backend list
concatenated with the local ephemeral list) that are the only records with
their shared non-empty `clusterId` and are both unexpired, the merge of
`fetchOnce` yields exactly one record with that id — the one with the larger
`expiresAt` — regardless of arrival order. -/
theorem fetchOnce_dedup_by_cluster (backend weather : List AlertLite) (now : ℤ)
    (c : String) (a b : AlertLite)
    (hc : c ≠ "") (ha : a.clusterId = c) (hb : b.clusterId = c)
    (hae : now < a.expiresAt) (hbe : now < b.expiresAt)
    (hab : a.expiresAt < b.expiresAt)
    (hfl : (backend ++ weather).filter (fun x => decide (x.clusterId = c)) = [a, b] ∨
           (backend ++ weather).filter (fun x => decide (x.clusterId = c)) = [b, a]) :
    (fetchOnceMerge backend weather now).filter
      (fun x => decide (x.clusterId = c)) = [b] := by
  have hcomm :
      ((backend ++ weather).filter (fun x => decide (now < x.expiresAt))).filter
          (fun x => decide (x.clusterId = c)) =
        ((backend ++ weather).filter (fun x => decide (x.clusterId = c))).filter
          (fun x => decide (now < x.expiresAt)) := by
    rw [@List.filter_filter _ (fun x => decide (x.clusterId = c))
        (fun x => decide (now < x.expiresAt)) (backend ++ weather),
      @List.filter_filter _ (fun x => decide (now < x.expiresAt))
        (fun x => decide (x.clusterId = c)) (backend ++ weather)]
    exact List.filter_congr fun x _ => Bool.and_comm _ _
  have hFq :
      ((backend ++ weather).filter (fun x => decide (now < x.expiresAt))).filter
          (fun x => decide (x.clusterId = c)) = [a, b] ∨
      ((backend ++ weather).filter (fun x => decide (now < x.expiresAt))).filter
          (fun x => decide (x.clusterId = c)) = [b, a] := by
    rcases hfl with h | h
    · left
      rw [hcomm, h]
      simp [List.filter_cons, decide_eq_true hae, decide_eq_true hbe]
    · right
      rw [hcomm, h]
      simp [List.filter_cons, decide_eq_true hae, decide_eq_true hbe]
  have hlk : lookupId c (dedupById ((backend ++ weather).filter
      (fun x => decide (now < x.expiresAt)))) = some b := by
    unfold dedupById
    rw [lookupId_foldl_dedup c hc _ []]
    have h0 : lookupId c ([] : List (String × AlertLite)) = none := rfl
    rw [h0, winnerStep_foldl_filter]
    rcases hFq with h | h <;> rw [h]
    · simp [winnerStep, ha, hb, keepFresher, hab.le]
    · simp [winnerStep, ha, hb, keepFresher, not_le.mpr hab]
  have hfk := filter_key_of_lookup _ c b (keysOk_dedupById _) hlk
  have hvals :
      ((dedupById ((backend ++ weather).filter
          (fun x => decide (now < x.expiresAt)))).map Prod.snd).filter
        (fun x => decide (x.clusterId = c)) = [b] := by
    rw [filter_snd_map]
    have hcg : (dedupById ((backend ++ weather).filter
        (fun x => decide (now < x.expiresAt)))).filter
          (fun p => decide (p.2.clusterId = c)) =
        (dedupById ((backend ++ weather).filter
          (fun x => decide (now < x.expiresAt)))).filter
          (fun p => decide (p.1 = c)) :=
      List.filter_congr fun p hp => by
        have h2 := ((keysOk_dedupById _).2 p hp).1
        simp [h2]
    rw [hcg, hfk]
    simp
  have hperm : List.Perm
      ((fetchOnceMerge backend weather now).filter (fun x => decide (x.clusterId = c)))
      (((dedupById ((backend ++ weather).filter
          (fun x => decide (now < x.expiresAt)))).map Prod.snd).filter
        (fun x => decide (x.clusterId = c))) := by
    refine List.Perm.filter _ ?_
    simp only [fetchOnceMerge]
    exact List.mergeSort_perm _ _
  rw [hvals] at hperm
  exact List.perm_singleton.mp hperm

/-- **C1 witness** (spec Scenario B): `{clusterId:"c1", expiresAt:100}` and
`{clusterId:"c1", expiresAt:200}` with `now = 50` merge to a single `"c1"`
record with `expiresAt = 200`. -/
theorem fetchOnce_dedup_by_cluster_witness :
    ((([{ clusterId := "c1", incidentType := "w", expiresAt := 100 }] : List AlertLite) ++
        ([{ clusterId := "c1", incidentType := "w", expiresAt := 200 }] : List AlertLite)).filter
          (fun x => decide (x.clusterId = "c1")) =
        ([{ clusterId := "c1", incidentType := "w", expiresAt := 100 },
          { clusterId := "c1", incidentType := "w", expiresAt := 200 }] : List AlertLite)) ∧
    (fetchOnceMerge
        ([{ clusterId := "c1", incidentType := "w", expiresAt := 100 }] : List AlertLite)
        ([{ clusterId := "c1", incidentType := "w", expiresAt := 200 }] : List AlertLite)
        50).filter (fun x => decide (x.clusterId = "c1")) =
      ([{ clusterId := "c1", incidentType := "w", expiresAt := 200 }] : List AlertLite) :=
  ⟨by decide,
    fetchOnce_dedup_by_cluster
      [({ clusterId := "c1", incidentType := "w", expiresAt := 100 } : AlertLite)]
      [({ clusterId := "c1", incidentType := "w", expiresAt := 200 } : AlertLite)]
      50 "c1"
      ({ clusterId := "c1", incidentType := "w", expiresAt := 100 } : AlertLite)
      ({ clusterId := "c1", incidentType := "w", expiresAt := 200 } : AlertLite)
      (by decide) (by decide) (by decide) (by decide) (by decide) (by decide)
      (Or.inl (by decide))⟩

theorem mem_merge_now_lt (backend weather : List AlertLite) (now : ℤ)
    (x : AlertLite) (hx : x ∈ fetchOnceMerge backend weather now) :
    now < x.expiresAt := by
  have hx2 : x ∈ (dedupById ((backend ++ weather).filter
      (fun a => decide (now < a.expiresAt)))).map Prod.snd := by
    simpa only [fetchOnceMerge, List.mem_mergeSort] using hx
  rcases List.mem_map.mp hx2 with ⟨p, hp, hps⟩
  rcases mem_foldl_dedup _ [] p hp with h | h
  · simp at h
  · have hmem := List.mem_filter.mp h
    exact of_decide_eq_true (hps ▸ hmem.2)

/-- **C2.** Every record in the merged output list produced by an aggregator
cycle has `expiresAt` strictly greater than the merge-time clock `now`; a
record expired at or before `now` never appears. -/
theorem fetchOnce_expiry_filter (backend weather : List AlertLite) (now : ℤ)
    (x : AlertLite) (hx : x ∈ fetchOnceMerge backend weather now) :
    now < x.expiresAt :=
  mem_merge_now_lt backend weather now x hx

/-- **C2 witness**: a live record is in the output and satisfies the bound
(and, per spec Scenario C, the expired `{clusterId:"c2", expiresAt:10}`
record is dropped at `now = 50`). -/
theorem fetchOnce_expiry_filter_witness :
    (({ clusterId := "c1", incidentType := "w", expiresAt := 100 } : AlertLite) ∈
        fetchOnceMerge [{ clusterId := "c1", incidentType := "w", expiresAt := 100 }]
          [{ clusterId := "c2", incidentType := "w", expiresAt := 10 }] 50) ∧
    (50 : ℤ) <
      ({ clusterId := "c1", incidentType := "w", expiresAt := 100 } : AlertLite).expiresAt := by
  have hmem : ({ clusterId := "c1", incidentType := "w", expiresAt := 100 } : AlertLite) ∈
      fetchOnceMerge [{ clusterId := "c1", incidentType := "w", expiresAt := 100 }]
        [{ clusterId := "c2", incidentType := "w", expiresAt := 10 }] 50 := by
    simp [fetchOnceMerge, dedupById, dedupInsert, lookupId]
  exact ⟨hmem, fetchOnce_expiry_filter _ _ _ _ hmem⟩

theorem byExpiryDesc_trans (a b c : AlertLite) (hab : byExpiryDesc a b = true)
    (hbc : byExpiryDesc b c = true) : byExpiryDesc a c = true := by
  simp only [byExpiryDesc, decide_eq_true_eq] at *
  omega

theorem byExpiryDesc_total (a b : AlertLite) :
    (byExpiryDesc a b || byExpiryDesc b a) = true := by
  simp only [byExpiryDesc, Bool.or_eq_true, decide_eq_true_eq]
  omega

theorem merge_pairwise (backend weather : List AlertLite) (now : ℤ) :
    (fetchOnceMerge backend weather now).Pairwise
      (fun x y => byExpiryDesc x y = true) := by
  simp only [fetchOnceMerge]
  exact List.sorted_mergeSort byExpiryDesc_trans byExpiryDesc_total _

theorem merge_out_clusterIds (backend weather : List AlertLite) (now : ℤ) :
    (∀ x ∈ fetchOnceMerge backend weather now, x.clusterId ≠ "") ∧
    ((fetchOnceMerge backend weather now).map fun x => x.clusterId).Nodup := by
  have hperm : List.Perm (fetchOnceMerge backend weather now)
      ((dedupById ((backend ++ weather).filter
        (fun a => decide (now < a.expiresAt)))).map Prod.snd) := by
    simp only [fetchOnceMerge]
    exact List.mergeSort_perm _ _
  constructor
  · intro x hx
    have hx2 := hperm.mem_iff.mp hx
    rcases List.mem_map.mp hx2 with ⟨p, hp, hps⟩
    have h2 := (keysOk_dedupById _).2 p hp
    rw [← hps, h2.1]
    exact h2.2
  · have hmapped : ((dedupById ((backend ++ weather).filter
        (fun a => decide (now < a.expiresAt)))).map Prod.snd).map
          (fun x => x.clusterId) =
        (dedupById ((backend ++ weather).filter
          (fun a => decide (now < a.expiresAt)))).map Prod.fst := by
      rw [List.map_map]
      exact List.map_congr_left fun p hp => ((keysOk_dedupById _).2 p hp).1
    have hpm : List.Perm ((fetchOnceMerge backend weather now).map fun x => x.clusterId)
        ((dedupById ((backend ++ weather).filter
          (fun a => decide (now < a.expiresAt)))).map Prod.fst) := by
      rw [← hmapped]
      exact hperm.map _
    exact hpm.nodup_iff.mpr (keysOk_dedupById _).1

theorem foldl_dedup_of_nodup (l : List AlertLite) (m : List (String × AlertLite))
    (hdisj : ∀ x ∈ l, x.clusterId ∉ m.map Prod.fst)
    (hne : ∀ x ∈ l, x.clusterId ≠ "")
    (hnd : (l.map fun x => x.clusterId).Nodup) :
    l.foldl dedupInsert m = m ++ l.map fun x => (x.clusterId, x) := by
  induction l generalizing m with
  | nil => simp
  | cons a l ih =>
      have hA : a.clusterId ≠ "" := hne a (by simp)
      have hnotin : a.clusterId ∉ m.map Prod.fst := hdisj a (by simp)
      have hlk : lookupId a.clusterId m = none := (lookupId_none_iff _ _).mpr hnotin
      have hstep : dedupInsert m a = m ++ [(a.clusterId, a)] := by
        simp [dedupInsert, hA, hlk]
      have hnd2 : (a.clusterId :: l.map fun x => x.clusterId).Nodup := by
        simpa using hnd
      have hndTail : (l.map fun x => x.clusterId).Nodup :=
        (List.nodup_cons.mp hnd2).2
      have hHeadNotin : a.clusterId ∉ l.map fun x => x.clusterId :=
        (List.nodup_cons.mp hnd2).1
      simp only [List.foldl_cons, hstep]
      rw [ih (m ++ [(a.clusterId, a)]) ?_ (fun x hx => hne x (List.mem_cons_of_mem _ hx))
        hndTail]
      · simp
      · intro x hx
        simp only [List.map_append, List.mem_append]
        rintro (hmem | hmem)
        · exact hdisj x (List.mem_cons_of_mem _ hx) hmem
        · simp at hmem
          exact hHeadNotin (hmem ▸ List.mem_map_of_mem (fun x => x.clusterId) hx)

theorem merge_fixed_point (out : List AlertLite) (now : ℤ)
    (hexp : ∀ x ∈ out, now < x.expiresAt)
    (hne : ∀ x ∈ out, x.clusterId ≠ "")
    (hnd : (out.map fun x => x.clusterId).Nodup)
    (hsorted : out.Pairwise fun x y => byExpiryDesc x y = true) :
    fetchOnceMerge out [] now = out := by
  have hfilter : (out ++ []).filter (fun a => decide (now < a.expiresAt)) = out := by
    rw [List.append_nil]
    exact List.filter_eq_self.mpr fun a ha => decide_eq_true (hexp a ha)
  have hded : dedupById out = out.map fun x => (x.clusterId, x) := by
    unfold dedupById
    simpa using foldl_dedup_of_nodup out [] (by simp) hne hnd
  have hvals : (out.map fun x => (x.clusterId, x)).map Prod.snd = out := by
    rw [List.map_map]
    have hid : (Prod.snd ∘ fun x : AlertLite => (x.clusterId, x)) = id := rfl
    rw [hid, List.map_id]
  simp only [fetchOnceMerge]
  rw [hfilter, hded, hvals]
  exact List.mergeSort_of_sorted hsorted

/-- **C6.** The merge is deterministic and idempotent: identical inputs give
identical outputs (a pure function of its inputs), the output is sorted by
`expiresAt` descending, and re-merging the output (with an empty local list
and the same `now`) reproduces it unchanged. -/
theorem fetchOnce_merge_deterministic_idempotent (backend weather : List AlertLite)
    (now : ℤ) :
    fetchOnceMerge backend weather now = fetchOnceMerge backend weather now ∧
    (fetchOnceMerge backend weather now).Pairwise
      (fun x y => y.expiresAt ≤ x.expiresAt) ∧
    fetchOnceMerge (fetchOnceMerge backend weather now) [] now =
      fetchOnceMerge backend weather now := by
  refine ⟨rfl, ?_, ?_⟩
  · exact (merge_pairwise backend weather now).imp fun h => by
      simpa [byExpiryDesc] using h
  · exact merge_fixed_point _ now (mem_merge_now_lt backend weather now)
      (merge_out_clusterIds backend weather now).1
      (merge_out_clusterIds backend weather now).2
      (merge_pairwise backend weather now)

/-- **C7.** A failed cycle (network or parse error) leaves the persisted and
published aggregator state entirely unchanged, and the next successful cycle
proceeds exactly as it would have from the same state. -/
theorem fetchOnce_failure_preserves_state (e : FetchError)
    (weatherRaw : List AlertLite) (now nowMs : ℤ) (store : AlertsStore)
    (payload : AlertsPayload) (weather2 : List AlertLite) (now2 nowMs2 : ℤ) :
    fetchOnceCycle (.error e) weatherRaw now nowMs store = store ∧
    fetchOnceCycle (.ok payload) weather2 now2 nowMs2
        (fetchOnceCycle (.error e) weatherRaw now nowMs store) =
      fetchOnceCycle (.ok payload) weather2 now2 nowMs2 store :=
  ⟨rfl, rfl⟩

/-! ## Claim theorems: LocationBus -/

/-- **C8.** In every observable `LocationSnapshot` — the initial restore from
storage and every state after position ticks, geocode completions and
permission refreshes, under arbitrary store contents and endpoint responses —
the `address` field is either absent or a string that does not match the
coordinate-pair pattern. -/
theorem snapshot_address_never_coordinates (s : LocSnapshot)
    (h : ReachableSnap s) : AddrOk s := by
  induction h with
  | init savedCoords savedAddress =>
      intro a ha
      simp only [readSaved] at ha
      cases savedAddress with
      | none => simp at ha
      | some v =>
          by_cases hv : looksLikeCoords v
          · simp [hv] at ha
          · simp [hv] at ha
            rw [← ha]
            exact Bool.not_eq_true _ ▸ (by simpa using hv)
  | pos c nowMs _ ih =>
      intro a ha
      exact ih a ha
  | geoBegin _ ih =>
      intro a ha
      exact ih a ha
  | geoEnd api payloadAddress _ ih =>
      intro a ha
      simp only [geocodeEnd] at ha
      cases api with
      | none => exact ih a (by simpa [reverseGeocodeModel, Option.orElse] using ha)
      | some u =>
          simp only [reverseGeocodeModel] at ha
          cases hpl : processGeoPayload payloadAddress with
          | none => exact ih a (by rw [hpl] at ha; simpa [Option.orElse] using ha)
          | some v =>
              rw [hpl] at ha
              simp [Option.orElse] at ha
              cases payloadAddress with
              | none => simp [processGeoPayload] at hpl
              | some w =>
                  simp only [processGeoPayload] at hpl
                  by_cases hw : w = ""
                  · simp [hw] at hpl
                  · by_cases hlc : looksLikeCoords w
                    · simp [hw, hlc] at hpl
                    · simp [hw, hlc] at hpl
                      rw [← ha, ← hpl]
                      simpa using hlc
  | perm p _ ih =>
      intro a ha
      exact ih a ha

/-- **C8 witness**: a genuine geocoded address in a reachable snapshot is not
coordinate-like (restore with a coordinate-like stored address, then a
successful geocode). -/
theorem snapshot_address_never_coordinates_witness :
    looksLikeCoords "1 Flinders St" = false :=
  snapshot_address_never_coordinates
    (geocodeEnd (readSaved none (some " -37.81360, 144.96310 ")) (some "api")
      (some "1 Flinders St"))
    (ReachableSnap.geoEnd (some "api") (some "1 Flinders St")
      (ReachableSnap.init none (some " -37.81360, 144.96310 ")))
    "1 Flinders St" (by decide)

/-- **C9.** With no configured endpoint base address, reverse geocoding is
disabled entirely: no network request is issued (no fallback endpoint), the
call returns no address, and a completing geocode leaves the snapshot's
address exactly as it was (so it stays `none` absent a previously known
address). -/
theorem geocode_disabled_without_endpoint (payloadAddress : Option String)
    (s : LocSnapshot) :
    reverseGeocodeModel none payloadAddress = (none, false) ∧
    (geocodeEnd s none payloadAddress).address = s.address := by
  constructor
  · rfl
  · simp [geocodeEnd, reverseGeocodeModel, Option.orElse]

theorem maybeGeocode_skip (api : Option String) (respond : ℚ → ℚ → Option String)
    (st : GeoState) (lat lon : ℚ)
    (hcell : st.lastCell = some (roundCell lat lon)) (haddr : st.address.isSome) :
    maybeGeocode api respond st lat lon = (st, 0) := by
  simp [maybeGeocode, hcell, haddr]

theorem maybeGeocode_hit (u : String) (respond : ℚ → ℚ → Option String)
    (st : GeoState) (lat lon : ℚ) (a : String)
    (hresp : processGeoPayload (respond lat lon) = some a)
    (hmiss : ¬ (st.lastCell = some (roundCell lat lon) ∧ st.address.isSome)) :
    maybeGeocode (some u) respond st lat lon =
      ({ address := some a, lastCell := some (roundCell lat lon) }, 1) := by
  simp [maybeGeocode, hmiss, reverseGeocodeModel, hresp, Option.orElse]

theorem runPositions_saturated (api : Option String)
    (respond : ℚ → ℚ → Option String) (st : GeoState) (c : ℚ × ℚ)
    (ps : List (ℚ × ℚ)) (hst : st.lastCell = some c) (haddr : st.address.isSome)
    (hps : ∀ p ∈ ps, roundCell p.1 p.2 = c) :
    runPositions api respond st ps = (st, 0) := by
  induction ps with
  | nil => rfl
  | cons p ps ih =>
      have h1 : maybeGeocode api respond st p.1 p.2 = (st, 0) :=
        maybeGeocode_skip api respond st p.1 p.2
          (by rw [hps p (List.mem_cons_self _ _)]; exact hst) haddr
      simp [runPositions, h1, ih fun q hq => hps q (List.mem_cons_of_mem _ hq)]

theorem runPositions_append (api : Option String)
    (respond : ℚ → ℚ → Option String) (st : GeoState) (xs ys : List (ℚ × ℚ)) :
    runPositions api respond st (xs ++ ys) =
      ((runPositions api respond (runPositions api respond st xs).1 ys).1,
        (runPositions api respond st xs).2 +
          (runPositions api respond (runPositions api respond st xs).1 ys).2) := by
  induction xs generalizing st with
  | nil => simp [runPositions]
  | cons x xs ih => simp [runPositions, ih, Nat.add_assoc]

/-- **C4.** A sequence of position updates whose coordinates all fall in the
same 3-decimal cell triggers exactly one reverse-geocode call (given the
endpoint is configured and answers with genuine addresses, starting from no
known address); a subsequent position in a different cell triggers exactly
one more. -/
theorem geocode_cell_throttling (u : String) (respond : ℚ → ℚ → Option String)
    (p0 : ℚ × ℚ) (ps : List (ℚ × ℚ)) (q : ℚ × ℚ)
    (hsame : ∀ p ∈ ps, roundCell p.1 p.2 = roundCell p0.1 p0.2)
    (hdiff : roundCell q.1 q.2 ≠ roundCell p0.1 p0.2)
    (hresp : ∀ lat lon, (processGeoPayload (respond lat lon)).isSome) :
    (runPositions (some u) respond {} (p0 :: ps)).2 = 1 ∧
    (runPositions (some u) respond {} ((p0 :: ps) ++ [q])).2 = 2 := by
  obtain ⟨a0, ha0⟩ := Option.isSome_iff_exists.mp (hresp p0.1 p0.2)
  have h1 : maybeGeocode (some u) respond {} p0.1 p0.2 =
      ({ address := some a0, lastCell := some (roundCell p0.1 p0.2) }, 1) :=
    maybeGeocode_hit u respond {} p0.1 p0.2 a0 ha0 (by intro h; simpa using h.2)
  have hsat : runPositions (some u) respond
      ({ address := some a0, lastCell := some (roundCell p0.1 p0.2) } : GeoState) ps =
      ({ address := some a0, lastCell := some (roundCell p0.1 p0.2) }, 0) :=
    runPositions_saturated _ _ _ (roundCell p0.1 p0.2) ps rfl rfl hsame
  have hrun1 : runPositions (some u) respond {} (p0 :: ps) =
      ({ address := some a0, lastCell := some (roundCell p0.1 p0.2) }, 1) := by
    simp [runPositions, h1, hsat]
  obtain ⟨a1, ha1⟩ := Option.isSome_iff_exists.mp (hresp q.1 q.2)
  have hq : maybeGeocode (some u) respond
      ({ address := some a0, lastCell := some (roundCell p0.1 p0.2) } : GeoState)
      q.1 q.2 = ({ address := some a1, lastCell := some (roundCell q.1 q.2) }, 1) :=
    maybeGeocode_hit u respond _ q.1 q.2 a1 ha1
      (fun h => hdiff (Option.some.inj h.1).symm)
  have happ := runPositions_append (some u) respond {} (p0 :: ps) [q]
  rw [hrun1] at happ
  refine ⟨by rw [hrun1], ?_⟩
  rw [happ]
  simp [runPositions, hq]

/-- **C4 witness** (spec Scenario D): `(-37.8136, 144.9631)` then
`(-37.81361, 144.96311)` (same cell) → one geocode call; then
`(-37.8150, 144.9650)` (new cell) → a second call fires. -/
theorem geocode_cell_throttling_witness :
    (runPositions (some "u") (fun _ _ => some "Flinders Street Station") {}
      [((-378136/10000 : ℚ), (1449631/10000 : ℚ)),
       ((-3781361/100000 : ℚ), (14496311/100000 : ℚ))]).2 = 1 ∧
    (runPositions (some "u") (fun _ _ => some "Flinders Street Station") {}
      ([((-378136/10000 : ℚ), (1449631/10000 : ℚ)),
        ((-3781361/100000 : ℚ), (14496311/100000 : ℚ))] ++
       [((-37815/1000 : ℚ), (144965/1000 : ℚ))])).2 = 2 := by
  have hf1 : (⌊(-3781361/100000 : ℚ) * 10 ^ 3⌋ : ℤ) = -37814 := by
    rw [Int.floor_eq_iff]
    norm_num
  have hf2 : (⌊(-378136/10000 : ℚ) * 10 ^ 3⌋ : ℤ) = -37814 := by
    rw [Int.floor_eq_iff]
    norm_num
  have hf3 : (⌊(14496311/100000 : ℚ) * 10 ^ 3⌋ : ℤ) = 144963 := by
    rw [Int.floor_eq_iff]
    norm_num
  have hf4 : (⌊(1449631/10000 : ℚ) * 10 ^ 3⌋ : ℤ) = 144963 := by
    rw [Int.floor_eq_iff]
    norm_num
  have hf5 : (⌊(-37815/1000 : ℚ) * 10 ^ 3⌋ : ℤ) = -37815 := by
    rw [Int.floor_eq_iff]
    norm_num
  have hcell2 : roundCell (-3781361/100000 : ℚ) (14496311/100000 : ℚ) =
      roundCell (-378136/10000 : ℚ) (1449631/10000 : ℚ) := by
    simp [roundCell, hf1, hf2, hf3, hf4]
  have hdiff : roundCell (-37815/1000 : ℚ) (144965/1000 : ℚ) ≠
      roundCell (-378136/10000 : ℚ) (1449631/10000 : ℚ) := by
    simp only [roundCell, hf5, hf2]
    intro h
    have := congrArg Prod.fst h
    norm_num at this
  exact geocode_cell_throttling "u" (fun _ _ => some "Flinders Street Station")
    ((-378136/10000 : ℚ), (1449631/10000 : ℚ))
    [((-3781361/100000 : ℚ), (14496311/100000 : ℚ))]
    ((-37815/1000 : ℚ), (144965/1000 : ℚ))
    (by
      intro p hp
      simp only [List.mem_singleton] at hp
      subst hp
      exact hcell2)
    hdiff
    (by
      have hgood : (processGeoPayload (some "Flinders Street Station")).isSome = true := by
        decide
      intro lat lon
      exact hgood)

/-- **C5 counterexample.** The claim says the cell key is obtained by
dropping all digits beyond the third decimal place; but `roundCell` uses
`Math.floor`, which rounds toward minus infinity, so at the negative
latitude `-37.8136` the key component is `-37.814` whereas digit-dropping
yields `-37.813`. -/
theorem roundCell_not_digit_truncation :
    roundCell (-378136/10000 : ℚ) (1449631/10000 : ℚ) ≠
      (truncDigits3 (-378136/10000 : ℚ), truncDigits3 (1449631/10000 : ℚ)) := by
  have hf : (⌊(-378136/10000 : ℚ) * 10 ^ 3⌋ : ℤ) = -37814 := by
    rw [Int.floor_eq_iff]
    norm_num
  have hneg : ¬ (0 : ℚ) ≤ -378136/10000 := by norm_num
  have hc : (⌈(-378136/10000 : ℚ) * 1000⌉ : ℤ) = -37813 := by
    rw [Int.ceil_eq_iff]
    norm_num
  intro h
  have hfst := congrArg Prod.fst h
  simp only [roundCell, truncDigits3, hneg, if_neg, ite_false, hf, hc] at hfst
  norm_num at hfst

/-- **C5 amended.** The geocode-throttling cell key floors each coordinate at
the third decimal (`Math.floor(x·1000)/1000`, rounding toward minus
infinity); this coincides with dropping all digits beyond the third decimal
place exactly when the coordinate is non-negative. -/
theorem roundCell_floor_semantics (lat lon : ℚ) :
    roundCell lat lon =
      (((⌊lat * 1000⌋ : ℤ) : ℚ) / 1000, ((⌊lon * 1000⌋ : ℤ) : ℚ) / 1000) ∧
    (0 ≤ lat → (roundCell lat lon).1 = truncDigits3 lat) ∧
    (0 ≤ lon → (roundCell lat lon).2 = truncDigits3 lon) := by
  refine ⟨?_, ?_, ?_⟩
  · norm_num [roundCell]
  · intro h
    simp only [roundCell, truncDigits3, h, if_pos]
    norm_num
  · intro h
    simp only [roundCell, truncDigits3, h, if_pos]
    norm_num

/-- **C5 amended witness**: for a non-negative coordinate pair the floored
cell key agrees with digit-dropping truncation. -/
theorem roundCell_floor_semantics_witness :
    (roundCell (378136/10000 : ℚ) (1449631/10000 : ℚ)).1 =
      truncDigits3 (378136/10000 : ℚ) ∧
    (roundCell (378136/10000 : ℚ) (1449631/10000 : ℚ)).2 =
      truncDigits3 (1449631/10000 : ℚ) :=
  ⟨(roundCell_floor_semantics _ _).2.1 (by norm_num),
   (roundCell_floor_semantics _ _).2.2 (by norm_num)⟩

/-! ## Claim theorems: the geospatial classifier -/

theorem Buckets.get_push (b : Buckets) (k : Category) (m : AlertModel) :
    (b.push k m).get k = b.get k ++ [m] := by
  cases k <;> rfl

theorem eatStep_far (radiusKm extRadiusKm : ℚ) (distAt : ℚ × ℚ → ℚ × ℚ → ℚ)
    (parseDate : String → Option ℤ) (nowMs : ℤ) (origin : ℚ × ℚ)
    (st : EatState) (f : Feature) (c : ℚ × ℚ)
    (hc : f.geometry.bind centroid = some c)
    (h2 : R2_METERS radiusKm extRadiusKm < distAt origin c) :
    eatStep radiusKm extRadiusKm distAt parseDate nowMs origin st f = st := by
  simp [eatStep, hc, h2]

theorem eatStep_near (radiusKm extRadiusKm : ℚ) (distAt : ℚ × ℚ → ℚ × ℚ → ℚ)
    (parseDate : String → Option ℤ) (nowMs : ℤ) (origin : ℚ × ℚ)
    (st : EatState) (f : Feature) (c : ℚ × ℚ)
    (hc : f.geometry.bind centroid = some c)
    (hfresh : (eatModel parseDate nowMs f.properties c (distAt origin c)).id ∉ st.seen)
    (h2 : ¬ R2_METERS radiusKm extRadiusKm < distAt origin c)
    (h1 : distAt origin c ≤ R1_METERS radiusKm) :
    eatStep radiusKm extRadiusKm distAt parseDate nowMs origin st f =
      { st with
        seen := st.seen ++
          [(eatModel parseDate nowMs f.properties c (distAt origin c)).id],
        nearby := st.nearby ++
          [eatModel parseDate nowMs f.properties c (distAt origin c)] } := by
  simp [eatStep, hc, h2, hfresh, h1]

theorem eatStep_extended (radiusKm extRadiusKm : ℚ) (distAt : ℚ × ℚ → ℚ × ℚ → ℚ)
    (parseDate : String → Option ℤ) (nowMs : ℤ) (origin : ℚ × ℚ)
    (st : EatState) (f : Feature) (c : ℚ × ℚ)
    (hc : f.geometry.bind centroid = some c)
    (hfresh : (eatModel parseDate nowMs f.properties c (distAt origin c)).id ∉ st.seen)
    (h2 : ¬ R2_METERS radiusKm extRadiusKm < distAt origin c)
    (h1 : ¬ distAt origin c ≤ R1_METERS radiusKm) :
    eatStep radiusKm extRadiusKm distAt parseDate nowMs origin st f =
      { st with
        seen := st.seen ++
          [(eatModel parseDate nowMs f.properties c (distAt origin c)).id],
        within30 := st.within30.push
          (eatModel parseDate nowMs f.properties c (distAt origin c)).category
          (eatModel parseDate nowMs f.properties c (distAt origin c)) } := by
  simp [eatStep, hc, h2, hfresh, h1]

theorem nearby_append_ne (l : List AlertModel) (m : AlertModel) :
    l ≠ l ++ [m] := by
  intro h
  have := congrArg List.length h
  simp at this

theorem push_ne_self (b : Buckets) (k : Category) (m : AlertModel) :
    b ≠ b.push k m := by
  intro h
  have := congrArg (fun x => (Buckets.get x k).length) h
  simp [Buckets.get_push] at this

/-- **C3.** For a feature whose centroid resolves to `c`, at great-circle
distance `d = distAt origin c` from the query point, and whose derived id is
fresh: it lands in the `nearby` bucket (and nowhere else) iff `d ≤ R1`; it
lands only in the `extended` bucket under its classified category iff
`R1 < d ≤ R2`; and it lands in neither bucket iff `d > R2`. -/
theorem eat_distance_bucketing (radiusKm extRadiusKm : ℚ)
    (distAt : ℚ × ℚ → ℚ × ℚ → ℚ) (parseDate : String → Option ℤ) (nowMs : ℤ)
    (origin : ℚ × ℚ) (st : EatState) (f : Feature) (c : ℚ × ℚ)
    (hc : f.geometry.bind centroid = some c)
    (hfresh : (eatModel parseDate nowMs f.properties c (distAt origin c)).id ∉ st.seen) :
    (((eatStep radiusKm extRadiusKm distAt parseDate nowMs origin st f).nearby =
        st.nearby ++ [eatModel parseDate nowMs f.properties c (distAt origin c)] ∧
      (eatStep radiusKm extRadiusKm distAt parseDate nowMs origin st f).within30 =
        st.within30) ↔
      distAt origin c ≤ R1_METERS radiusKm) ∧
    (((eatStep radiusKm extRadiusKm distAt parseDate nowMs origin st f).nearby =
        st.nearby ∧
      (eatStep radiusKm extRadiusKm distAt parseDate nowMs origin st f).within30 =
        st.within30.push
          (eatModel parseDate nowMs f.properties c (distAt origin c)).category
          (eatModel parseDate nowMs f.properties c (distAt origin c))) ↔
      (R1_METERS radiusKm < distAt origin c ∧
        distAt origin c ≤ R2_METERS radiusKm extRadiusKm)) ∧
    ((eatStep radiusKm extRadiusKm distAt parseDate nowMs origin st f = st) ↔
      R2_METERS radiusKm extRadiusKm < distAt origin c) := by
  have hR : R1_METERS radiusKm ≤ R2_METERS radiusKm extRadiusKm := le_max_right _ _
  by_cases h1 : distAt origin c ≤ R1_METERS radiusKm
  · have h2 : ¬ R2_METERS radiusKm extRadiusKm < distAt origin c :=
      not_lt.mpr (h1.trans hR)
    rw [eatStep_near radiusKm extRadiusKm distAt parseDate nowMs origin st f c hc
      hfresh h2 h1]
    refine ⟨?_, ?_, ?_⟩
    · simp [h1]
    · constructor
      · rintro ⟨hA, _⟩
        simp at hA
      · rintro ⟨hlt, _⟩
        exact absurd h1 (not_le.mpr hlt)
    · constructor
      · intro h
        have := congrArg EatState.nearby h
        simp at this
      · intro h
        exact absurd h h2
  · by_cases h2 : R2_METERS radiusKm extRadiusKm < distAt origin c
    · rw [eatStep_far radiusKm extRadiusKm distAt parseDate nowMs origin st f c hc h2]
      refine ⟨?_, ?_, ?_⟩
      · constructor
        · rintro ⟨hA, _⟩
          simp at hA
        · intro h
          exact absurd h h1
      · constructor
        · rintro ⟨_, hB⟩
          exact absurd hB (push_ne_self _ _ _)
        · rintro ⟨_, hle⟩
          exact absurd h2 (not_lt.mpr hle)
      · simp [h2]
    · rw [eatStep_extended radiusKm extRadiusKm distAt parseDate nowMs origin st f c
        hc hfresh h2 h1]
      refine ⟨?_, ?_, ?_⟩
      · constructor
        · rintro ⟨hA, _⟩
          exact absurd hA (nearby_append_ne _ _)
        · intro h
          exact absurd h h1
      · constructor
        · intro _
          exact ⟨not_le.mp h1, not_lt.mp h2⟩
        · intro _
          exact ⟨rfl, rfl⟩
      · constructor
        · intro h
          have := congrArg EatState.within30 h
          exact absurd this.symm (push_ne_self _ _ _)
        · intro h
          exact absurd h h2

/-- **C3 witness** (spec Scenario A shape): a Fire/Responding point feature
3 km from the origin, under the default radii (5 km primary, 30 km
extended), is appended to `nearby` and leaves the extended buckets
untouched. -/
theorem eat_distance_bucketing_witness :
    ((eatStep 5 30 (fun _ _ => (3000 : ℚ)) (fun _ => none) 777 (0, 0) {}
        { geometry := some (.point [1449/10, -378/10]),
          properties := { category1 := "Fire", status := "Responding" } }).nearby =
      ({} : EatState).nearby ++
        [eatModel (fun _ => none) 777
          { category1 := "Fire", status := "Responding" }
          (-378/10, 1449/10) 3000] ∧
    (eatStep 5 30 (fun _ _ => (3000 : ℚ)) (fun _ => none) 777 (0, 0) {}
        { geometry := some (.point [1449/10, -378/10]),
          properties := { category1 := "Fire", status := "Responding" } }).within30 =
      ({} : EatState).within30) := by
  have hc : (({ geometry := some (.point [1449/10, -378/10]),
                properties := { category1 := "Fire", status := "Responding" } } :
        Feature)).geometry.bind centroid = some ((-378/10 : ℚ), (1449/10 : ℚ)) := by
    simp [centroid, posToLatLon]
  have hd : ((3000 : ℚ)) ≤ R1_METERS 5 := by
    have h5 : R1_METERS 5 = 5000 := by
      rw [show R1_METERS 5 = max 0 5 * 1000 from rfl,
        max_eq_right (by norm_num : (0:ℚ) ≤ 5)]
      norm_num
    rw [h5]
    norm_num
  exact ((eat_distance_bucketing 5 30 (fun _ _ => (3000 : ℚ)) (fun _ => none) 777
    (0, 0) {} _ ((-378/10 : ℚ), (1449/10 : ℚ)) hc (by simp)).1).mpr hd

/-- **C10.** For every configuration of the primary and extended radii
(including an extended radius smaller than the primary, or negative values)
the effective radii satisfy `0 ≤ R1 ≤ R2`, so a feature within the primary
radius can never be discarded by the extended-radius cutoff. -/
theorem radii_clamped_invariant (radiusKm extRadiusKm : ℚ) :
    0 ≤ R1_METERS radiusKm ∧
    R1_METERS radiusKm ≤ R2_METERS radiusKm extRadiusKm ∧
    ∀ d : ℚ, d ≤ R1_METERS radiusKm → ¬ R2_METERS radiusKm extRadiusKm < d := by
  refine ⟨mul_nonneg (le_max_left 0 radiusKm) (by norm_num), le_max_right _ _, ?_⟩
  intro d hd
  exact not_lt.mpr (hd.trans (le_max_right _ _))

/-- **C10 witness**: with primary radius 5 km and an extended radius
configured at only 2 km, a feature at 4 km is still not beyond the effective
extended cutoff. -/
theorem radii_clamped_invariant_witness :
    ¬ R2_METERS 5 2 < (4000 : ℚ) :=
  (radii_clamped_invariant 5 2).2.2 4000
    (by
      have h5 : R1_METERS 5 = 5000 := by
        rw [show R1_METERS 5 = max 0 5 * 1000 from rfl,
          max_eq_right (by norm_num : (0:ℚ) ≤ 5)]
        norm_num
      rw [h5]
      norm_num)

end CycSafe
